import Mathlib

/-!
Verification of the treasury-output ledger core, the database lifecycle
controller and the node-health monitor of the hornet node, as a shallow
embedding of the Go sources:
  pkg/model/utxo/treasury_output.go
  core/database/core.go
  the tangle healthcheck file (IsNodeHealthy)
Bytes are modelled as Nat, byte strings as List Nat, and the key-value
store as an ordered association list of key/value records (store-native
iteration order is list order).  External collaborators (the peer
manager, the tangle, the concrete kvstore backend) appear as explicit
state records.
-/

namespace Hornet

/-- A byte string. -/
abbrev Bytes := List Nat

/-- The key-value store: ordered list of key/value records. -/
abbrev Store := List (Bytes × Bytes)

/-- Key namespace byte of treasury outputs.  Modelled from the spec: the
source file references the constant named UTXOStoreKeyPrefixTreasuryOutput
declared elsewhere in the package; the spec only says it is a distinct
reserved namespace byte, and none of the verified properties depend on
its concrete value. -/
def UTXOStoreKeyPrefixTreasuryOutput : Nat := 4

/-- A prefix byte which denotes a spent treasury output
(TreasuryOutputSpentPrefix = 1 in the source). -/
def TreasuryOutputSpentPrefix : Nat := 1

/-- A prefix byte which denotes an unspent treasury output
(TreasuryOutputUnspentPrefix = 0 in the source). -/
def TreasuryOutputUnspentPrefix : Nat := 0

/-- iotago.MilestoneIDLength (32 bytes). -/
def MilestoneIDLength : Nat := 32

/-- TreasuryOutput from treasury_output.go: milestone id, amount,
spent flag. -/
structure TreasuryOutput where
  milestoneID : Bytes
  amount : Nat
  spent : Bool
deriving DecidableEq, Repr

/-- marshalutil.WriteBool: one byte, 1 for true, 0 for false. -/
def boolByte (b : Bool) : Nat := if b then 1 else 0

/-- marshalutil.WriteUint64: 8 bytes, little endian. -/
def writeUint64 (a : Nat) : Bytes :=
  [a % 256, a / 256 % 256, a / 65536 % 256, a / 16777216 % 256,
   a / 4294967296 % 256, a / 1099511627776 % 256,
   a / 281474976710656 % 256, a / 72057594037927936 % 256]

/-- marshalutil.ReadUint64: needs at least 8 bytes, reads little
endian, leaves the rest unread. -/
def readUint64 : Bytes → Option Nat
  | b0 :: b1 :: b2 :: b3 :: b4 :: b5 :: b6 :: b7 :: _ =>
    some (b0 + 256 * (b1 + 256 * (b2 + 256 * (b3 + 256 *
      (b4 + 256 * (b5 + 256 * (b6 + 256 * b7)))))))
  | _ => none

/-- TreasuryOutput.kvStorableKey: namespace byte, spent-flag byte,
milestone id bytes. -/
def kvStorableKey (t : TreasuryOutput) : Bytes :=
  UTXOStoreKeyPrefixTreasuryOutput :: boolByte t.spent :: t.milestoneID

/-- TreasuryOutput.kvStorableValue: the amount as 8 bytes. -/
def kvStorableValue (t : TreasuryOutput) : Bytes :=
  writeUint64 t.amount

/-- Decode failures of TreasuryOutput.kvStorableLoad, mirroring which
sequential marshalutil read fails. -/
inductive DecodeErr where
  | keyNamespaceMissing
  | keySpentFlagMissing
  | keyMilestoneTooShort
  | valueAmountTooShort
deriving DecidableEq, Repr

/-- TreasuryOutput.kvStorableLoad: read and skip the namespace byte,
read the spent flag (ReadBool: byte not zero), read 32 milestone-id
bytes, then read the 8-byte amount from the value. -/
def kvStorableLoad (key value : Bytes) : Except DecodeErr TreasuryOutput :=
  match key with
  | [] => .error .keyNamespaceMissing
  | _ :: rest =>
    match rest with
    | [] => .error .keySpentFlagMissing
    | spentByte :: rest2 =>
      if MilestoneIDLength ≤ rest2.length then
        match readUint64 value with
        | some amount =>
          .ok { milestoneID := rest2.take MilestoneIDLength
                amount := amount
                spent := spentByte ≠ 0 }
        | none => .error .valueAmountTooShort
      else .error .keyMilestoneTooShort

/-- Whether a stored record decodes successfully. -/
def loadOk (e : Bytes × Bytes) : Bool :=
  match kvStorableLoad e.1 e.2 with
  | .ok _ => true
  | .error _ => false

/-- Boolean key-prefix test, the filtering KVStore.Iterate applies. -/
def isPfxOf : Bytes → Bytes → Bool
  | [], _ => true
  | _ :: _, [] => false
  | a :: as, b :: bs => a == b && isPfxOf as bs

/-- The records of the store whose keys start with the given bytes, in
store order: exactly the sequence KVStore.Iterate visits. -/
def partitionEntries (store : Store) (p : Bytes) : Store :=
  store.filter (fun e => isPfxOf p e.1)

/-- Iteration key of the unspent-treasury partition. -/
def unspentPartitionKey : Bytes :=
  [UTXOStoreKeyPrefixTreasuryOutput, TreasuryOutputUnspentPrefix]

/-- Iteration key of the spent-treasury partition. -/
def spentPartitionKey : Bytes :=
  [UTXOStoreKeyPrefixTreasuryOutput, TreasuryOutputSpentPrefix]

/-- Iteration key of the whole treasury namespace. -/
def treasuryPartitionKey : Bytes :=
  [UTXOStoreKeyPrefixTreasuryOutput]

/-- The closure state of Manager.UnspentTreasuryOutput: the visit
counter i, the captured innerErr, and the pointer to the last loaded
output. -/
structure UnspentScan where
  i : Nat
  innerErr : Option DecodeErr
  result : Option TreasuryOutput
deriving DecidableEq, Repr

/-- The iteration loop of Manager.UnspentTreasuryOutput: count the
record, load it, remember it; on a load failure record innerErr and
return false (stop). -/
def unspentScanGo : Store → UnspentScan → UnspentScan
  | [], s => s
  | e :: rest, s =>
    match kvStorableLoad e.1 e.2 with
    | .ok out => unspentScanGo rest ⟨s.i + 1, s.innerErr, some out⟩
    | .error err => ⟨s.i + 1, some err, s.result⟩

/-- Errors surfaced by Manager.UnspentTreasuryOutput: a propagated
decode error, or ErrInvalidTreasuryState wrapped with a message. -/
inductive QueryErr where
  | decodeFailed (e : DecodeErr)
  | invalidTreasuryState (msg : String)
deriving DecidableEq, Repr

/-- Manager.UnspentTreasuryOutput: iterate the unspent-treasury
partition, propagate a decode error first, then require exactly one
visited record; the success payload is the pointer the closure last
wrote (which Go would return even if nil, hence the Option). -/
def UnspentTreasuryOutput (store : Store) :
    Except QueryErr (Option TreasuryOutput) :=
  let s := unspentScanGo (partitionEntries store unspentPartitionKey)
    ⟨0, none, none⟩
  match s.innerErr with
  | some e => .error (.decodeFailed e)
  | none =>
    if s.i > 1 then
      .error (.invalidTreasuryState "more than one unspent treasury output exists")
    else if s.i = 0 then
      .error (.invalidTreasuryState "no treasury output exists")
    else .ok s.result

/-- TreasuryOutputConsumer from the source. -/
abbrev TreasuryOutputConsumer := TreasuryOutput → Bool

/-- The iterate options the two ForEach functions read
(iterateOptions collapses the option list into these fields). -/
structure IterOpts where
  readLockLedger : Bool
  maxResultCount : Int
deriving DecidableEq, Repr

/-- The closure state of the ForEach loops: visit counter i, the
records fed to the consumer (instrumentation for the spec), the
captured innerErr, and whether the callback has returned false. -/
structure ForEachState where
  i : Nat
  fed : List TreasuryOutput
  innerErr : Option DecodeErr
  stopped : Bool
deriving DecidableEq, Repr

/-- One callback invocation of the ForEach loops: once stopped, the
iterator no longer calls back; the max-result check runs before the
count and the load; a decode failure records innerErr and stops; a
decoded record is fed to the consumer whose answer decides whether
iteration continues. -/
def forEachStep (consumer : TreasuryOutputConsumer) (n : Int)
    (s : ForEachState) (e : Bytes × Bytes) : ForEachState :=
  if s.stopped then s
  else if 0 < n ∧ n ≤ (s.i : Int) then { s with stopped := true }
  else
    match kvStorableLoad e.1 e.2 with
    | .error err => { s with i := s.i + 1, innerErr := some err, stopped := true }
    | .ok out => ⟨s.i + 1, s.fed ++ [out], s.innerErr, !(consumer out)⟩

/-- The full iteration of a ForEach call over a partition. -/
def forEachGo (consumer : TreasuryOutputConsumer) (n : Int)
    (entries : Store) (s : ForEachState) : ForEachState :=
  entries.foldl (forEachStep consumer n) s

/-- The zero-initialised closure state. -/
def initForEachState : ForEachState := ⟨0, [], none, false⟩

/-- Manager.ForEachTreasuryOutput: iterate the whole treasury
namespace; returns the captured innerErr (none on success) and, as
instrumentation, the records fed to the consumer. -/
def ForEachTreasuryOutput (store : Store)
    (consumer : TreasuryOutputConsumer) (opt : IterOpts) :
    Option DecodeErr × List TreasuryOutput :=
  let s := forEachGo consumer opt.maxResultCount
    (partitionEntries store treasuryPartitionKey) initForEachState
  (s.innerErr, s.fed)

/-- Manager.ForEachSpentTreasuryOutput: same loop over the
spent-treasury partition. -/
def ForEachSpentTreasuryOutput (store : Store)
    (consumer : TreasuryOutputConsumer) (opt : IterOpts) :
    Option DecodeErr × List TreasuryOutput :=
  let s := forEachGo consumer opt.maxResultCount
    (partitionEntries store spentPartitionKey) initForEachState
  (s.innerErr, s.fed)

/-- The records of a partition that decode, in order (with every record
decoding, exactly the records an unbounded iteration feeds). -/
def decodedOutputs (entries : Store) : List TreasuryOutput :=
  entries.filterMap (fun e =>
    match kvStorableLoad e.1 e.2 with
    | .ok out => some out
    | .error _ => none)

/-- Key equality test used by the association-list store. -/
def keyEq (k : Bytes) (e : Bytes × Bytes) : Bool := e.1 = k

/-- A queued mutation of a kvstore.BatchedMutations batch. -/
inductive Mutation where
  | set (k v : Bytes)
  | del (k : Bytes)
deriving DecidableEq, Repr

/-- Point lookup in the association-list store. -/
def storeGet (store : Store) (k : Bytes) : Option Bytes :=
  (store.find? (keyEq k)).map Prod.snd

/-- Deleting a key drops every record with that key. -/
def storeDelete (store : Store) (k : Bytes) : Store :=
  store.filter (fun e => !(keyEq k e))

/-- Setting a key replaces any record with that key. -/
def storeSet (store : Store) (k v : Bytes) : Store :=
  storeDelete store k ++ [(k, v)]

/-- Apply one queued mutation to the store. -/
def applyMutation (store : Store) : Mutation → Store
  | .set k v => storeSet store k v
  | .del k => storeDelete store k

/-- Commit a batch: apply its mutations in order. -/
def applyMutations (store : Store) (ms : List Mutation) : Store :=
  ms.foldl applyMutation store

/-- markTreasuryOutputAsSpent: on a local copy, force Spent to false and
queue a delete of that key, then force Spent to true and queue a set of
that key to the encoded value. -/
def markTreasuryOutputAsSpent (output : TreasuryOutput) : List Mutation :=
  [.del (kvStorableKey { output with spent := false }),
   .set (kvStorableKey { output with spent := true })
        (kvStorableValue { output with spent := true })]

/-- markTreasuryOutputAsUnspent: the reverse transition. -/
def markTreasuryOutputAsUnspent (output : TreasuryOutput) : List Mutation :=
  [.del (kvStorableKey { output with spent := true }),
   .set (kvStorableKey { output with spent := false })
        (kvStorableValue { output with spent := false })]

/-- A milestone record, as far as the healthcheck reads it: its
timestamp (seconds). -/
structure Milestone where
  timestamp : Int
deriving DecidableEq, Repr

/-- The external state IsNodeHealthy reads: the tangle sync flag, the
count of connected peers of the known relation
(Manager.ConnectedCount(p2p.PeerRelationKnown)), and the cached latest
milestone (GetCachedMilestoneOrNil of GetLatestMilestoneIndex, nil
when unavailable). -/
structure NodeState where
  isNodeSyncedWithThreshold : Bool
  connectedCountKnown : Nat
  latestMilestone : Option Milestone
deriving DecidableEq, Repr

/-- maxAllowedMilestoneAge = time.Minute * 5, in seconds. -/
def maxAllowedMilestoneAge : Int := 5 * 60

/-- IsNodeHealthy: synced, at least one known peer, latest milestone
retrievable, and time.Since(timestamp) < maxAllowedMilestoneAge. -/
def IsNodeHealthy (s : NodeState) (now : Int) : Bool :=
  if !s.isNodeSyncedWithThreshold then false
  else if s.connectedCountKnown = 0 then false
  else
    match s.latestMilestone with
    | none => false
    | some m => now - m.timestamp < maxAllowedMilestoneAge

/-- The observable store-lifecycle actions of the shutdown path. -/
inductive DBEvent where
  | markHealthy
  | flushStore
  | closeStore
deriving DecidableEq, Repr

/-- The outcomes the underlying store will give to Flush and Close. -/
structure StoreBehavior where
  flushErr : Option String
  closeErr : Option String
deriving DecidableEq, Repr

/-- closeDatabases: Flush the store, returning its error if it fails;
otherwise Close it, returning its error if it fails; the trace records
the calls made. -/
def closeDatabases (b : StoreBehavior) : List DBEvent × Option String :=
  match b.flushErr with
  | some e => ([.flushStore], some e)
  | none =>
    match b.closeErr with
    | some e => ([.flushStore, .closeStore], some e)
    | none => ([.flushStore, .closeStore], none)

/-- The body of the Close database background worker, run once when the
shutdown signal fires: MarkDatabaseHealthy, then closeDatabases. -/
def closeDatabaseWorker (b : StoreBehavior) : List DBEvent :=
  DBEvent.markHealthy :: (closeDatabases b).1

/-- The outcome of Storage.CleanupDatabases: success, the
ErrNothingToCleanUp sentinel, or a real failure. -/
inductive GCErr where
  | nothingToCleanUp
  | failure (msg : String)
deriving DecidableEq, Repr

/-- The dependencies RunGarbageCollection reads: whether the active
backend supports cleanup, and what CleanupDatabases will return. -/
structure GCDeps where
  supportsCleanup : Bool
  cleanupResult : Option GCErr
deriving DecidableEq, Repr

/-- Observable actions of RunGarbageCollection: log lines and the two
DatabaseCleanup event triggers (start-only, then start and finish). -/
inductive GCEvent where
  | infoLog (msg : String)
  | cleanupStarted (start : Int)
  | cleanupFinished (start finish : Int)
  | warnLog (msg : String)
deriving DecidableEq, Repr

/-- The info line logged when a collection begins. -/
def gcRunningMsg : String :=
  "running full database garbage collection. This can take a while..."

/-- The warning line prefix logged when cleanup fails. -/
def gcFailedMsg : String :=
  "full database garbage collection failed with error: "

/-- The info line logged when a collection finishes. -/
def gcFinishedMsg : String :=
  "full database garbage collection finished."

/-- RunGarbageCollection: return at once when the backend does not
support cleanup; otherwise log, trigger the start event, run cleanup,
trigger the finish event, and downgrade a non-sentinel cleanup error to
a warning log. -/
def RunGarbageCollection (d : GCDeps) (startTime endTime : Int) :
    List GCEvent :=
  if !d.supportsCleanup then []
  else
    .infoLog gcRunningMsg ::
    .cleanupStarted startTime ::
    .cleanupFinished startTime endTime ::
    (match d.cleanupResult with
     | some (.failure msg) => [.warnLog (gcFailedMsg ++ msg)]
     | _ => [.infoLog gcFinishedMsg])

theorem readUint64_writeUint64 (a : Nat) (h : a < 18446744073709551616) :
    readUint64 (writeUint64 a) = some a := by
  simp only [writeUint64, readUint64, Option.some.injEq]
  omega

theorem boolByte_ne_zero (b : Bool) : decide (boolByte b ≠ 0) = b := by
  cases b <;> rfl

theorem find?_storeDelete_self (s : Store) (k : Bytes) :
    (storeDelete s k).find? (keyEq k) = none := by
  induction s with
  | nil => rfl
  | cons e rest ih =>
    simp only [storeDelete, List.filter_cons] at *
    cases h : keyEq k e with
    | true => simp [h, ih]
    | false => simp [h, List.find?_cons, ih]

theorem storeGet_storeDelete_self (s : Store) (k : Bytes) :
    storeGet (storeDelete s k) k = none := by
  simp [storeGet, find?_storeDelete_self]

theorem find?_filter_of_imp (l : Store) (p q : Bytes × Bytes → Bool)
    (h : ∀ e, p e = true → q e = true) :
    (l.filter q).find? p = l.find? p := by
  induction l with
  | nil => rfl
  | cons e rest ih =>
    simp only [List.filter_cons]
    cases hq : q e with
    | true =>
      cases hp : p e with
      | true => simp [List.find?_cons, hp]
      | false => simpa [List.find?_cons, hp] using ih
    | false =>
      have hp : p e = false := by
        cases hp : p e with
        | true => exact absurd (h e hp) (by simp [hq])
        | false => rfl
      simpa [List.find?_cons, hp] using ih

theorem find?_append_cases (l1 l2 : Store) (p : Bytes × Bytes → Bool) :
    (l1 ++ l2).find? p =
      (match l1.find? p with
       | some r => some r
       | none => l2.find? p) := by
  induction l1 with
  | nil => rfl
  | cons e rest ih =>
    cases hp : p e with
    | true => simp [List.find?_cons, hp]
    | false => simpa [List.find?_cons, hp] using ih

theorem storeGet_storeSet_self (s : Store) (k v : Bytes) :
    storeGet (storeSet s k v) k = some v := by
  simp [storeGet, storeSet, find?_append_cases, find?_storeDelete_self,
    List.find?_cons, keyEq]

theorem storeGet_storeSet_other (s : Store) (k v k2 : Bytes)
    (h : k2 ≠ k) : storeGet (storeSet s k v) k2 = storeGet s k2 := by
  have hf : (storeDelete s k).find? (keyEq k2) = s.find? (keyEq k2) := by
    refine find?_filter_of_imp s (keyEq k2) (fun e => !(keyEq k e)) ?_
    intro e he
    simp only [keyEq, decide_eq_true_eq] at he ⊢
    simp [he, h]
  have hkk : ¬(k = k2) := fun hh => h hh.symm
  have hsingle : (([(k, v)] : Store).find? (keyEq k2)) = none := by
    simp [List.find?_cons, keyEq, hkk]
  simp only [storeGet, storeSet, find?_append_cases, hf, hsingle]
  cases s.find? (keyEq k2) <;> rfl

theorem kvStorableKey_spent_flag_ne (t : TreasuryOutput) :
    kvStorableKey { t with spent := false } ≠
      kvStorableKey { t with spent := true } := by
  simp [kvStorableKey, boolByte]

theorem unspentScanGo_all_ok (entries : Store) (s : UnspentScan)
    (h : ∀ e ∈ entries, loadOk e = true) :
    (unspentScanGo entries s).i = s.i + entries.length ∧
    (unspentScanGo entries s).innerErr = s.innerErr := by
  induction entries generalizing s with
  | nil => simp [unspentScanGo]
  | cons e rest ih =>
    have he := h e (List.mem_cons_self e rest)
    simp only [loadOk] at he
    cases hl : kvStorableLoad e.1 e.2 with
    | error err => simp [hl] at he
    | ok out =>
      have hrec := ih ⟨s.i + 1, s.innerErr, some out⟩
        (fun x hx => h x (List.mem_cons_of_mem e hx))
      simp only [unspentScanGo, hl, List.length_cons]
      exact ⟨by rw [hrec.1]; dsimp only; omega, hrec.2⟩

theorem unspentScanGo_no_err (entries : Store) (s : UnspentScan)
    (h : (unspentScanGo entries s).innerErr = none) :
    (unspentScanGo entries s).i = s.i + entries.length ∧
    ∀ e ∈ entries, loadOk e = true := by
  induction entries generalizing s with
  | nil => simp [unspentScanGo]
  | cons e rest ih =>
    cases hl : kvStorableLoad e.1 e.2 with
    | error err => simp [unspentScanGo, hl] at h
    | ok out =>
      simp only [unspentScanGo, hl] at h ⊢
      have hrec := ih ⟨s.i + 1, s.innerErr, some out⟩ h
      refine ⟨by rw [hrec.1]; dsimp only; simp only [List.length_cons]; omega, ?_⟩
      intro x hx
      rcases List.mem_cons.mp hx with hx | hx
      · subst hx; simp [loadOk, hl]
      · exact hrec.2 x hx

theorem unspentScanGo_first_err (pre : Store) (e0 : Bytes × Bytes)
    (post : Store) (err : DecodeErr) (s : UnspentScan)
    (hpre : ∀ x ∈ pre, loadOk x = true)
    (he : kvStorableLoad e0.1 e0.2 = .error err) :
    (unspentScanGo (pre ++ e0 :: post) s).innerErr = some err := by
  induction pre generalizing s with
  | nil => simp [unspentScanGo, he]
  | cons x rest ih =>
    have hx := hpre x (List.mem_cons_self x rest)
    simp only [loadOk] at hx
    cases hl : kvStorableLoad x.1 x.2 with
    | error err2 => simp [hl] at hx
    | ok out =>
      simp only [List.cons_append, unspentScanGo, hl]
      exact ih ⟨s.i + 1, s.innerErr, some out⟩
        (fun y hy => hpre y (List.mem_cons_of_mem x hy))

theorem forEachStep_stopped (c : TreasuryOutputConsumer) (n : Int)
    (s : ForEachState) (e : Bytes × Bytes) (h : s.stopped = true) :
    forEachStep c n s e = s := by
  simp [forEachStep, h]

theorem forEachGo_stopped (c : TreasuryOutputConsumer) (n : Int)
    (entries : Store) (s : ForEachState) (h : s.stopped = true) :
    forEachGo c n entries s = s := by
  induction entries with
  | nil => rfl
  | cons e rest ih =>
    simp only [forEachGo, List.foldl_cons, forEachStep_stopped c n s e h]
    exact ih

theorem forEachGo_append (c : TreasuryOutputConsumer) (n : Int)
    (xs ys : Store) (s : ForEachState) :
    forEachGo c n (xs ++ ys) s = forEachGo c n ys (forEachGo c n xs s) := by
  simp [forEachGo, List.foldl_append]

theorem forEachStep_inv (c : TreasuryOutputConsumer) (n : Int)
    (s : ForEachState) (e : Bytes × Bytes) (hn : 0 < n)
    (hi : (s.i : Int) ≤ n) (hf : s.fed.length ≤ s.i) :
    ((forEachStep c n s e).i : Int) ≤ n ∧
    (forEachStep c n s e).fed.length ≤ (forEachStep c n s e).i := by
  unfold forEachStep
  by_cases hst : s.stopped = true
  · rw [if_pos hst]
    exact ⟨hi, hf⟩
  · rw [if_neg hst]
    by_cases hmax : 0 < n ∧ n ≤ (s.i : Int)
    · rw [if_pos hmax]
      exact ⟨hi, hf⟩
    · rw [if_neg hmax]
      have hlt : (s.i : Int) < n := by
        rcases not_and_or.mp hmax with h | h
        · exact absurd hn h
        · omega
      cases hl : kvStorableLoad e.1 e.2 with
      | error err => exact ⟨by simp; omega, by simp; omega⟩
      | ok out => exact ⟨by simp; omega, by simp; omega⟩

theorem forEachGo_inv (c : TreasuryOutputConsumer) (n : Int)
    (entries : Store) (hn : 0 < n) :
    ∀ s : ForEachState, (s.i : Int) ≤ n → s.fed.length ≤ s.i →
    ((forEachGo c n entries s).i : Int) ≤ n ∧
    (forEachGo c n entries s).fed.length ≤ (forEachGo c n entries s).i := by
  induction entries with
  | nil => exact fun s hi hf => ⟨hi, hf⟩
  | cons e rest ih =>
    intro s hi hf
    have hstep := forEachStep_inv c n s e hn hi hf
    simp only [forEachGo, List.foldl_cons] at *
    exact ih _ hstep.1 hstep.2

theorem forEachGo_unbounded (c : TreasuryOutputConsumer) (n : Int)
    (hn : n ≤ 0) (hc : ∀ out, c out = true) (entries : Store) :
    ∀ s : ForEachState, s.stopped = false →
    (∀ e ∈ entries, loadOk e = true) →
    forEachGo c n entries s =
      ⟨s.i + entries.length, s.fed ++ decodedOutputs entries,
       s.innerErr, false⟩ := by
  induction entries with
  | nil =>
    intro s hs _
    obtain ⟨i, fed, ie, st⟩ := s
    simp only at hs
    subst hs
    simp [forEachGo, decodedOutputs]
  | cons e rest ih =>
    intro s hs hok
    have he := hok e (List.mem_cons_self e rest)
    simp only [loadOk] at he
    cases hl : kvStorableLoad e.1 e.2 with
    | error err => simp [hl] at he
    | ok out =>
      have hstep : forEachStep c n s e =
          ⟨s.i + 1, s.fed ++ [out], s.innerErr, false⟩ := by
        unfold forEachStep
        rw [hs]
        rw [if_neg (by simp), if_neg (by omega), hl]
        simp [hc out]
      simp only [forEachGo, List.foldl_cons, hstep]
      have hrec := ih ⟨s.i + 1, s.fed ++ [out], s.innerErr, false⟩ rfl
        (fun x hx => hok x (List.mem_cons_of_mem e hx))
      simp only [forEachGo] at hrec
      rw [hrec]
      congr 1
      · simp only [List.length_cons]
        omega
      · rw [List.append_assoc]
        simp [decodedOutputs, List.filterMap_cons, hl]

end Hornet

open Hornet

/-- C3: decoding the key/value pair produced by encoding a valid
treasury output record (milestone id of the fixed 32-byte length,
amount fitting in 64 bits) succeeds and yields the identical record. -/
theorem treasury_codec_round_trip (t : TreasuryOutput)
    (hms : t.milestoneID.length = MilestoneIDLength)
    (hamt : t.amount < 18446744073709551616) :
    kvStorableLoad (kvStorableKey t) (kvStorableValue t) = .ok t := by
  simp only [kvStorableKey, kvStorableLoad, ← hms, le_refl, if_true,
    kvStorableValue, readUint64_writeUint64 t.amount hamt,
    List.take_length, boolByte_ne_zero]

/-- Witness for C3 at a concrete record. -/
theorem treasury_codec_round_trip_witness :
    kvStorableLoad
      (kvStorableKey ⟨List.replicate 32 7, 1000, false⟩)
      (kvStorableValue ⟨List.replicate 32 7, 1000, false⟩) =
      .ok ⟨List.replicate 32 7, 1000, false⟩ :=
  treasury_codec_round_trip ⟨List.replicate 32 7, 1000, false⟩ (by decide)
    (by decide)

/-- C6: the node is healthy exactly when it is synced within the
threshold, has at least one connected peer of the known relation, the
latest milestone is retrievable, and that milestone is younger than the
5-minute freshness window; in particular, with the other conditions
met, an age of 4 minutes 59 seconds is healthy and an age of 5 minutes
1 second is not. -/
theorem is_node_healthy_iff (s : NodeState) (now : Int) :
    (IsNodeHealthy s now = true ↔
      (s.isNodeSyncedWithThreshold = true ∧ 1 ≤ s.connectedCountKnown ∧
        ∃ m, s.latestMilestone = some m ∧
          now - m.timestamp < maxAllowedMilestoneAge)) ∧
    (∀ m, s.isNodeSyncedWithThreshold = true → 1 ≤ s.connectedCountKnown →
      s.latestMilestone = some m →
      (m.timestamp = now - 299 → IsNodeHealthy s now = true) ∧
      (m.timestamp = now - 301 → IsNodeHealthy s now = false)) := by
  obtain ⟨sync, peers, lm⟩ := s
  constructor
  · simp only [IsNodeHealthy]
    cases sync with
    | false => simp
    | true =>
      cases lm with
      | none => simp
      | some m =>
        simp only [Bool.not_true, Bool.false_eq_true, if_false]
        by_cases hp : peers = 0
        · simp [hp]
        · simp [hp, Nat.one_le_iff_ne_zero, decide_eq_true_eq]
  · intro m hsync hpeers hm
    subst hsync
    simp only at hm
    subst hm
    constructor <;> intro hts <;>
      simp [IsNodeHealthy, Nat.pos_iff_ne_zero.mp hpeers, hts,
        maxAllowedMilestoneAge]

/-- Witness for C6: both freshness boundary cases at concrete states. -/
theorem is_node_healthy_witness :
    IsNodeHealthy ⟨true, 1, some ⟨1⟩⟩ 300 = true ∧
    IsNodeHealthy ⟨true, 1, some ⟨(-1 : Int)⟩⟩ 300 = false :=
  ⟨((is_node_healthy_iff ⟨true, 1, some ⟨1⟩⟩ 300).2 ⟨1⟩ rfl (by decide)
      rfl).1 (by decide),
   ((is_node_healthy_iff ⟨true, 1, some ⟨(-1 : Int)⟩⟩ 300).2 ⟨(-1 : Int)⟩
      rfl (by decide) rfl).2 (by decide)⟩

/-- C7: the shutdown worker marks the database healthy strictly before
flushing, flushes strictly before closing, performs each action exactly
once (close only when flush succeeded), and closeDatabases hands its
caller the first error from flush or close. -/
theorem shutdown_sequence (b : StoreBehavior) :
    (closeDatabaseWorker b = [.markHealthy, .flushStore] ∨
      closeDatabaseWorker b = [.markHealthy, .flushStore, .closeStore]) ∧
    (closeDatabaseWorker b).count .markHealthy = 1 ∧
    (closeDatabaseWorker b).count .flushStore = 1 ∧
    (closeDatabaseWorker b).count .closeStore =
      (match b.flushErr with | some _ => 0 | none => 1) ∧
    (closeDatabases b).2 =
      (match b.flushErr with | some e => some e | none => b.closeErr) := by
  obtain ⟨fe, ce⟩ := b
  cases fe <;> cases ce <;>
    simp [closeDatabaseWorker, closeDatabases, List.count_cons]

/-- C8: when the backend does not support cleanup RunGarbageCollection
emits nothing; otherwise it emits the start event with the start
timestamp and then the finish event with both timestamps regardless of
the cleanup outcome, and a cleanup failure other than the
NothingToCleanUp sentinel adds only a warning log before a normal
return. -/
theorem run_garbage_collection_events (d : GCDeps) (s e : Int) :
    (d.supportsCleanup = false → RunGarbageCollection d s e = []) ∧
    (d.supportsCleanup = true →
      RunGarbageCollection d s e =
        .infoLog gcRunningMsg :: .cleanupStarted s ::
          .cleanupFinished s e ::
          (match d.cleanupResult with
           | some (.failure msg) => [.warnLog (gcFailedMsg ++ msg)]
           | _ => [.infoLog gcFinishedMsg]) ∧
      (∀ msg, d.cleanupResult = some (.failure msg) →
        RunGarbageCollection d s e =
          [.infoLog gcRunningMsg, .cleanupStarted s,
           .cleanupFinished s e, .warnLog (gcFailedMsg ++ msg)])) := by
  obtain ⟨sup, res⟩ := d
  cases sup with
  | false => simp [RunGarbageCollection]
  | true =>
    refine ⟨by simp, fun _ => ⟨by simp [RunGarbageCollection], ?_⟩⟩
    intro msg hres
    simp only at hres
    subst hres
    simp [RunGarbageCollection]

/-- Witness for C8: the unsupported-backend case and a failing cleanup
at concrete inputs. -/
theorem run_garbage_collection_events_witness :
    RunGarbageCollection ⟨false, none⟩ 10 20 = [] ∧
    RunGarbageCollection ⟨true, some (.failure "disk")⟩ 10 20 =
      [.infoLog gcRunningMsg, .cleanupStarted 10, .cleanupFinished 10 20,
       .warnLog (gcFailedMsg ++ "disk")] :=
  ⟨(run_garbage_collection_events ⟨false, none⟩ 10 20).1 rfl,
   ((run_garbage_collection_events ⟨true, some (.failure "disk")⟩ 10 20).2
      rfl).2 "disk" rfl⟩

/-- C9: the mark functions are pure in the passed record (the embedding
operates on copies, as the Go code copies the struct before forcing the
flag), and the batches they queue do not depend on the record's Spent
field: records agreeing on milestone id and amount queue identical
mutations. -/
theorem mark_treasury_ignores_input_spent (t1 t2 : TreasuryOutput)
    (hms : t1.milestoneID = t2.milestoneID) (ha : t1.amount = t2.amount) :
    markTreasuryOutputAsSpent t1 = markTreasuryOutputAsSpent t2 ∧
    markTreasuryOutputAsUnspent t1 = markTreasuryOutputAsUnspent t2 := by
  obtain ⟨ms1, a1, sp1⟩ := t1
  obtain ⟨ms2, a2, sp2⟩ := t2
  simp only at hms ha
  subst hms ha
  exact ⟨rfl, rfl⟩

/-- Witness for C9 at two concrete records differing only in Spent. -/
theorem mark_treasury_ignores_input_spent_witness :
    markTreasuryOutputAsSpent ⟨[1, 2], 5, false⟩ =
      markTreasuryOutputAsSpent ⟨[1, 2], 5, true⟩ ∧
    markTreasuryOutputAsUnspent ⟨[1, 2], 5, false⟩ =
      markTreasuryOutputAsUnspent ⟨[1, 2], 5, true⟩ :=
  mark_treasury_ignores_input_spent ⟨[1, 2], 5, false⟩ ⟨[1, 2], 5, true⟩
    rfl rfl

/-- C2: applying the batch queued by markTreasuryOutputAsSpent to a
store holding the unspent key of the record leaves the unspent key
absent and the spent key bound to the identical 8-byte amount encoding;
applying markTreasuryOutputAsUnspent does the reverse. -/
theorem mark_treasury_key_transition (store : Store) (t : TreasuryOutput) :
    ((storeGet store (kvStorableKey { t with spent := false })).isSome = true →
      storeGet (applyMutations store (markTreasuryOutputAsSpent t))
          (kvStorableKey { t with spent := false }) = none ∧
      storeGet (applyMutations store (markTreasuryOutputAsSpent t))
          (kvStorableKey { t with spent := true }) =
        some (writeUint64 t.amount) ∧
      (writeUint64 t.amount).length = 8) ∧
    ((storeGet store (kvStorableKey { t with spent := true })).isSome = true →
      storeGet (applyMutations store (markTreasuryOutputAsUnspent t))
          (kvStorableKey { t with spent := true }) = none ∧
      storeGet (applyMutations store (markTreasuryOutputAsUnspent t))
          (kvStorableKey { t with spent := false }) =
        some (writeUint64 t.amount) ∧
      (writeUint64 t.amount).length = 8) := by
  have hne := kvStorableKey_spent_flag_ne t
  constructor
  · intro _
    refine ⟨?_, ?_, rfl⟩
    · rw [show applyMutations store (markTreasuryOutputAsSpent t) =
          storeSet (storeDelete store (kvStorableKey { t with spent := false }))
            (kvStorableKey { t with spent := true })
            (kvStorableValue { t with spent := true }) from rfl,
        storeGet_storeSet_other _ _ _ _ hne, storeGet_storeDelete_self]
    · rw [show applyMutations store (markTreasuryOutputAsSpent t) =
          storeSet (storeDelete store (kvStorableKey { t with spent := false }))
            (kvStorableKey { t with spent := true })
            (kvStorableValue { t with spent := true }) from rfl,
        storeGet_storeSet_self]
      rfl
  · intro _
    refine ⟨?_, ?_, rfl⟩
    · rw [show applyMutations store (markTreasuryOutputAsUnspent t) =
          storeSet (storeDelete store (kvStorableKey { t with spent := true }))
            (kvStorableKey { t with spent := false })
            (kvStorableValue { t with spent := false }) from rfl,
        storeGet_storeSet_other _ _ _ _ (Ne.symm hne), storeGet_storeDelete_self]
    · rw [show applyMutations store (markTreasuryOutputAsUnspent t) =
          storeSet (storeDelete store (kvStorableKey { t with spent := true }))
            (kvStorableKey { t with spent := false })
            (kvStorableValue { t with spent := false }) from rfl,
        storeGet_storeSet_self]
      rfl

/-- Witness for C2 at a concrete one-record store for each direction. -/
theorem mark_treasury_key_transition_witness :
    (storeGet (applyMutations [([4, 0, 9], writeUint64 5)]
        (markTreasuryOutputAsSpent ⟨[9], 5, false⟩)) [4, 0, 9] = none ∧
      storeGet (applyMutations [([4, 0, 9], writeUint64 5)]
        (markTreasuryOutputAsSpent ⟨[9], 5, false⟩)) [4, 1, 9] =
        some (writeUint64 5) ∧ (writeUint64 5).length = 8) ∧
    (storeGet (applyMutations [([4, 1, 9], writeUint64 5)]
        (markTreasuryOutputAsUnspent ⟨[9], 5, true⟩)) [4, 1, 9] = none ∧
      storeGet (applyMutations [([4, 1, 9], writeUint64 5)]
        (markTreasuryOutputAsUnspent ⟨[9], 5, true⟩)) [4, 0, 9] =
        some (writeUint64 5) ∧ (writeUint64 5).length = 8) :=
  ⟨(mark_treasury_key_transition [([4, 0, 9], writeUint64 5)]
      ⟨[9], 5, false⟩).1 (by decide),
   (mark_treasury_key_transition [([4, 1, 9], writeUint64 5)]
      ⟨[9], 5, true⟩).2 (by decide)⟩

/-- C1 (amended): when every record of the unspent-treasury partition
decodes, UnspentTreasuryOutput returns the record exactly when the
partition holds exactly one record, the no-treasury
InvalidTreasuryState error on zero records, and the more-than-one
InvalidTreasuryState error on several records; success always means the
partition held exactly one record, which decoded. -/
theorem unspent_treasury_output_query (store : Store) :
    (partitionEntries store unspentPartitionKey = [] →
      UnspentTreasuryOutput store =
        .error (.invalidTreasuryState "no treasury output exists")) ∧
    (∀ e out, partitionEntries store unspentPartitionKey = [e] →
      kvStorableLoad e.1 e.2 = .ok out →
      UnspentTreasuryOutput store = .ok (some out)) ∧
    ((∀ e ∈ partitionEntries store unspentPartitionKey, loadOk e = true) →
      1 < (partitionEntries store unspentPartitionKey).length →
      UnspentTreasuryOutput store =
        .error (.invalidTreasuryState
          "more than one unspent treasury output exists")) ∧
    (∀ x, UnspentTreasuryOutput store = .ok x →
      ∃ e out, partitionEntries store unspentPartitionKey = [e] ∧
        kvStorableLoad e.1 e.2 = .ok out ∧ x = some out) := by
  refine ⟨?_, ?_, ?_, ?_⟩
  · intro h
    simp [UnspentTreasuryOutput, h, unspentScanGo]
  · intro e out h hl
    simp [UnspentTreasuryOutput, h, unspentScanGo, hl]
  · intro hok hlen
    obtain ⟨hi, herr⟩ := unspentScanGo_all_ok
      (partitionEntries store unspentPartitionKey) ⟨0, none, none⟩ hok
    simp only [UnspentTreasuryOutput, herr, hi]
    rw [if_pos (by omega)]
  · intro x h
    rcases hpart : partitionEntries store unspentPartitionKey with _ | ⟨e, rest⟩
    · simp [UnspentTreasuryOutput, hpart, unspentScanGo] at h
    · simp only [UnspentTreasuryOutput, hpart] at h
      cases herr : (unspentScanGo (e :: rest)
          (⟨0, none, none⟩ : UnspentScan)).innerErr with
      | some err => rw [herr] at h; simp at h
      | none =>
        obtain ⟨hi, hall⟩ := unspentScanGo_no_err (e :: rest)
          ⟨0, none, none⟩ herr
        cases rest with
        | cons y ys =>
          rw [herr] at h
          rw [if_pos (by rw [hi]; simp)] at h
          simp at h
        | nil =>
          cases hl : kvStorableLoad e.1 e.2 with
          | error err => simp [unspentScanGo, hl] at herr
          | ok out =>
            have hscan : unspentScanGo [e] (⟨0, none, none⟩ : UnspentScan) =
                ⟨1, none, some out⟩ := by
              simp [unspentScanGo, hl]
            rw [hscan] at h
            simp at h
            exact ⟨e, out, rfl, hl, h.symm⟩

/-- Counterexample to C1 as stated: a store whose unspent-treasury
partition holds exactly one record, on which the query does not return
a TreasuryOutput but the record's decode error. -/
theorem unspent_treasury_singleton_decode_failure :
    (partitionEntries [(([4, 0] : Bytes), ([] : Bytes))]
      unspentPartitionKey).length = 1 ∧
    UnspentTreasuryOutput [(([4, 0] : Bytes), ([] : Bytes))] =
      .error (.decodeFailed .keyMilestoneTooShort) := by
  constructor <;> rfl

/-- Witness for C1 (amended): the bootstrap scenario on the empty store
and the singleton success at a concrete well-formed store. -/
theorem unspent_treasury_output_query_witness :
    UnspentTreasuryOutput [] =
      .error (.invalidTreasuryState "no treasury output exists") ∧
    UnspentTreasuryOutput [(4 :: 0 :: List.replicate 32 7, writeUint64 5)] =
      .ok (some ⟨List.replicate 32 7, 5, false⟩) :=
  ⟨(unspent_treasury_output_query []).1 rfl,
   (unspent_treasury_output_query
       [(4 :: 0 :: List.replicate 32 7, writeUint64 5)]).2.1
     (4 :: 0 :: List.replicate 32 7, writeUint64 5)
     ⟨List.replicate 32 7, 5, false⟩ (by decide) rfl⟩

/-- C10: UnspentTreasuryOutput only reports an InvalidTreasuryState
error when every record of the unspent-treasury partition decoded, and
whenever a record of the partition fails to decode (all records before
it decoding), the call returns that record's decode error. -/
theorem unspent_treasury_decode_error_precedence (store : Store) :
    (∀ msg, UnspentTreasuryOutput store =
        .error (.invalidTreasuryState msg) →
      ∀ e ∈ partitionEntries store unspentPartitionKey, loadOk e = true) ∧
    (∀ pre e0 post err,
      partitionEntries store unspentPartitionKey = pre ++ e0 :: post →
      (∀ x ∈ pre, loadOk x = true) →
      kvStorableLoad e0.1 e0.2 = .error err →
      UnspentTreasuryOutput store = .error (.decodeFailed err)) := by
  constructor
  · intro msg h e he
    cases herr : (unspentScanGo (partitionEntries store unspentPartitionKey)
        (⟨0, none, none⟩ : UnspentScan)).innerErr with
    | some err =>
      simp only [UnspentTreasuryOutput] at h
      rw [herr] at h
      simp at h
    | none => exact (unspentScanGo_no_err _ _ herr).2 e he
  · intro pre e0 post err hpart hpre he
    have hs := unspentScanGo_first_err pre e0 post err
      ⟨0, none, none⟩ hpre he
    simp only [UnspentTreasuryOutput, hpart]
    rw [hs]

/-- Witness for C10 at a concrete corrupt store. -/
theorem unspent_treasury_decode_error_precedence_witness :
    UnspentTreasuryOutput [(([4, 0, 9] : Bytes), ([] : Bytes))] =
      .error (.decodeFailed .keyMilestoneTooShort) :=
  (unspent_treasury_decode_error_precedence
      [(([4, 0, 9] : Bytes), ([] : Bytes))]).2
    [] (([4, 0, 9] : Bytes), ([] : Bytes)) [] .keyMilestoneTooShort
    (by decide) (by simp) rfl

/-- C4: in both ForEach iterations, when the visited record at any
position fails to decode (iteration having reached it: every earlier
record decoded and was accepted by the consumer, and the bound had not
been hit), the iteration stops there, the consumer is fed exactly the
records before it, and the call returns the decode error. -/
theorem foreach_decode_error_aborts (store : Store)
    (consumer : TreasuryOutputConsumer) (opt : IterOpts)
    (pre : Store) (e0 : Bytes × Bytes) (post : Store) (err : DecodeErr)
    (s : ForEachState)
    (hs : forEachGo consumer opt.maxResultCount pre initForEachState = s)
    (hstop : s.stopped = false)
    (hmax : ¬(0 < opt.maxResultCount ∧ opt.maxResultCount ≤ (s.i : Int)))
    (he : kvStorableLoad e0.1 e0.2 = .error err) :
    (partitionEntries store treasuryPartitionKey = pre ++ e0 :: post →
      ForEachTreasuryOutput store consumer opt = (some err, s.fed)) ∧
    (partitionEntries store spentPartitionKey = pre ++ e0 :: post →
      ForEachSpentTreasuryOutput store consumer opt = (some err, s.fed)) := by
  have hstep : forEachStep consumer opt.maxResultCount s e0 =
      { s with i := s.i + 1, innerErr := some err, stopped := true } := by
    unfold forEachStep
    rw [hstop]
    rw [if_neg (by simp), if_neg hmax, he]
  have key : forEachGo consumer opt.maxResultCount (pre ++ e0 :: post)
      initForEachState =
      { s with i := s.i + 1, innerErr := some err, stopped := true } := by
    rw [forEachGo_append, hs]
    simp only [forEachGo, List.foldl_cons]
    rw [hstep]
    exact forEachGo_stopped consumer opt.maxResultCount post _ rfl
  constructor <;> intro hpart <;>
    simp [ForEachTreasuryOutput, ForEachSpentTreasuryOutput, hpart, key]

/-- Witness for C4: a corrupt first record at a concrete store, for
the whole-namespace iteration. -/
theorem foreach_decode_error_aborts_witness :
    ForEachTreasuryOutput [(([4, 0] : Bytes), ([] : Bytes))]
      (fun _ => true) ⟨false, 0⟩ = (some .keyMilestoneTooShort, []) :=
  (foreach_decode_error_aborts [(([4, 0] : Bytes), ([] : Bytes))]
      (fun _ => true) ⟨false, 0⟩ [] (([4, 0] : Bytes), ([] : Bytes)) []
      .keyMilestoneTooShort initForEachState rfl rfl (by decide) rfl).1
    (by decide)

/-- C5 (amended): with a positive max_result_count N both ForEach
iterations feed the consumer at most N records, and with N ≤ 0 and
every partition record decoding they feed every record of the iterated
partition as long as the consumer keeps returning true. -/
theorem foreach_iteration_bound (store : Store)
    (consumer : TreasuryOutputConsumer) (opt : IterOpts) :
    (0 < opt.maxResultCount →
      ((ForEachTreasuryOutput store consumer opt).2.length : Int) ≤
        opt.maxResultCount ∧
      ((ForEachSpentTreasuryOutput store consumer opt).2.length : Int) ≤
        opt.maxResultCount) ∧
    (opt.maxResultCount ≤ 0 → (∀ out, consumer out = true) →
      ((∀ e ∈ partitionEntries store treasuryPartitionKey, loadOk e = true) →
        ForEachTreasuryOutput store consumer opt =
          (none, decodedOutputs
            (partitionEntries store treasuryPartitionKey))) ∧
      ((∀ e ∈ partitionEntries store spentPartitionKey, loadOk e = true) →
        ForEachSpentTreasuryOutput store consumer opt =
          (none, decodedOutputs
            (partitionEntries store spentPartitionKey)))) := by
  constructor
  · intro hn
    constructor
    · have h := forEachGo_inv consumer opt.maxResultCount
        (partitionEntries store treasuryPartitionKey) hn initForEachState
        (by simp only [initForEachState]; omega) (by simp [initForEachState])
      simp only [ForEachTreasuryOutput]
      omega
    · have h := forEachGo_inv consumer opt.maxResultCount
        (partitionEntries store spentPartitionKey) hn initForEachState
        (by simp only [initForEachState]; omega) (by simp [initForEachState])
      simp only [ForEachSpentTreasuryOutput]
      omega
  · intro hn hc
    constructor
    · intro hok
      have h := forEachGo_unbounded consumer opt.maxResultCount hn hc
        (partitionEntries store treasuryPartitionKey) initForEachState
        rfl hok
      simp only [initForEachState] at h
      simp [ForEachTreasuryOutput, initForEachState, h]
    · intro hok
      have h := forEachGo_unbounded consumer opt.maxResultCount hn hc
        (partitionEntries store spentPartitionKey) initForEachState
        rfl hok
      simp only [initForEachState] at h
      simp [ForEachSpentTreasuryOutput, initForEachState, h]

/-- Counterexample to C5 as stated: with max_result_count = 0 and an
always-true consumer, a corrupt first record aborts the iteration, so a
perfectly decodable matching record of the partition is never fed. -/
theorem foreach_unbounded_skips_after_decode_failure :
    ForEachSpentTreasuryOutput
        [(([4, 1] : Bytes), ([] : Bytes)),
         (4 :: 1 :: List.replicate 32 7, writeUint64 5)]
        (fun _ => true) ⟨false, 0⟩ =
      (some .keyMilestoneTooShort, []) ∧
    (4 :: 1 :: List.replicate 32 7, writeUint64 5) ∈
      partitionEntries
        [(([4, 1] : Bytes), ([] : Bytes)),
         (4 :: 1 :: List.replicate 32 7, writeUint64 5)]
        spentPartitionKey ∧
    kvStorableLoad (4 :: 1 :: List.replicate 32 7) (writeUint64 5) =
      .ok ⟨List.replicate 32 7, 5, true⟩ := by
  refine ⟨rfl, by decide, rfl⟩

/-- Witness for C5 (amended): the bound at N = 1 on a two-record store
(one record fed) and the unbounded run over the same store feeding both
records. -/
theorem foreach_iteration_bound_witness :
    ((ForEachSpentTreasuryOutput
        [(4 :: 1 :: List.replicate 32 6, writeUint64 3),
         (4 :: 1 :: List.replicate 32 7, writeUint64 5)]
        (fun _ => true) ⟨false, 1⟩).2.length : Int) ≤ 1 ∧
    ForEachSpentTreasuryOutput
        [(4 :: 1 :: List.replicate 32 6, writeUint64 3),
         (4 :: 1 :: List.replicate 32 7, writeUint64 5)]
        (fun _ => true) ⟨false, 0⟩ =
      (none, [⟨List.replicate 32 6, 3, true⟩,
              ⟨List.replicate 32 7, 5, true⟩]) := by
  constructor
  · exact ((foreach_iteration_bound
      [(4 :: 1 :: List.replicate 32 6, writeUint64 3),
       (4 :: 1 :: List.replicate 32 7, writeUint64 5)]
      (fun _ => true) ⟨false, 1⟩).1 (by decide)).2
  · have h := ((foreach_iteration_bound
      [(4 :: 1 :: List.replicate 32 6, writeUint64 3),
       (4 :: 1 :: List.replicate 32 7, writeUint64 5)]
      (fun _ => true) ⟨false, 0⟩).2 (by decide)
      (fun _ => rfl)).2 (by decide)
    rw [h]
    rfl
